import Mathlib

/-!
# Verification of the Nyx spec/test traceability and drift-detection engine

Shallow embedding of `scripts/spec_diff.py` and `scripts/spec_test_map.py`
(the spec-section extractor, SHA-256 section hasher, drift detector,
annotation scanner, coverage calculator and report generator), together with
theorems settling the frozen claims about them.

Modelling conventions:
* Python `str` is modelled by Lean `String` / `List Char`; the whitespace
  classes (`str.strip`, regex `\s`) are modelled over their ASCII members.
* Python floats (coverage percentages) are modelled by exact rationals `ℚ`.
* Python dicts are modelled by association lists in insertion order; lookup
  returns the value of the *last* binding of a key, matching dict update
  semantics when a comprehension writes a duplicate key.
* `hashlib.sha256(text.encode("utf-8")).hexdigest()` is implemented in full
  (UTF-8 encoding, padding, message schedule, compression, hex rendering)
  over `Nat` with explicit `% 2^32` reductions.
* Fallible Python code (uncaught exceptions) is modelled with `Except`;
  an `Except.error` result models an exception propagating past `main`.
-/

set_option maxRecDepth 200000

namespace NyxSpec

/-- ASCII members of Python's whitespace class (`str.strip`, regex `\s`):
space, tab, newline, carriage return, vertical tab, form feed. -/
def isPySpaceChar (c : Char) : Bool :=
  c == ' ' || c == '\t' || c == '\n' || c == '\r' ||
  c == Char.ofNat 11 || c == Char.ofNat 12

/-- Model of `str.strip()` on a character list: drop leading and trailing whitespace. -/
def pyStripChars (cs : List Char) : List Char :=
  ((cs.dropWhile isPySpaceChar).reverse.dropWhile isPySpaceChar).reverse

/-- Model of `str.strip()`. -/
def pyStrip (s : String) : String :=
  String.mk (pyStripChars s.toList)

/-- Split a character list at `'\n'` (accumulator holds the current piece
reversed). -/
def splitNlChars (acc : List Char) : List Char → List String
  | [] => [String.mk acc.reverse]
  | c :: rest =>
      if c == '\n' then String.mk acc.reverse :: splitNlChars [] rest
      else splitNlChars (c :: acc) rest

/-- Model of `str.splitlines()` (modelled for `'\n'`-separated text): split on `'\n'`
and drop the final empty piece produced by a trailing newline, so that
`"a\n".splitlines() = ["a"]` and `"".splitlines() = []`. -/
def pySplitlines (s : String) : List String :=
  let parts := splitNlChars [] s.toList
  match parts.reverse with
  | "" :: rest => rest.reverse
  | _ => parts

/-- Model of `sep.join(pieces)`. -/
def joinStrings (sep : String) (l : List String) : String :=
  String.mk (((l.map String.toList).intersperse sep.toList).flatten)

/-- Python dict lookup on an insertion-ordered association list: the value of
the last binding of the key wins, matching repeated dict assignment. -/
def lookupLast (ps : List (String × String)) (k : String) : Option String :=
  (ps.reverse.find? (fun p => p.1 == k)).map (·.2)

/-- Model of `needle in hay` on character lists (Python substring test). -/
def substrChars (needle : List Char) : List Char → Bool
  | [] => needle.isEmpty
  | c :: rest => needle.isPrefixOf (c :: rest) || substrChars needle rest

/-- Model of `needle in hay` on strings. -/
def substrStr (needle hay : String) : Bool :=
  substrChars needle.toList hay.toList

/-! ## SHA-256 (`hashlib.sha256(...).hexdigest()`), over `Nat` -/

/-- Reduce to a 32-bit word. -/
def w32 (x : Nat) : Nat := x % 4294967296

/-- Rotate right within 32 bits. -/
def rotr32 (n x : Nat) : Nat := w32 ((x >>> n) ||| (x <<< (32 - n)))

/-- SHA-256 `Ch`. -/
def chooseBits (x y z : Nat) : Nat := (x &&& y) ^^^ ((x ^^^ 4294967295) &&& z)

/-- SHA-256 `Maj`. -/
def majorityBits (x y z : Nat) : Nat := ((x &&& y) ^^^ (x &&& z)) ^^^ (y &&& z)

/-- SHA-256 `Σ0`. -/
def bigSigma0 (x : Nat) : Nat := (rotr32 2 x ^^^ rotr32 13 x) ^^^ rotr32 22 x

/-- SHA-256 `Σ1`. -/
def bigSigma1 (x : Nat) : Nat := (rotr32 6 x ^^^ rotr32 11 x) ^^^ rotr32 25 x

/-- SHA-256 `σ0`. -/
def smallSigma0 (x : Nat) : Nat := (rotr32 7 x ^^^ rotr32 18 x) ^^^ (x >>> 3)

/-- SHA-256 `σ1`. -/
def smallSigma1 (x : Nat) : Nat := (rotr32 17 x ^^^ rotr32 19 x) ^^^ (x >>> 10)

/-- SHA-256 round constants (FIPS 180-4, written in decimal). -/
def shaK : List Nat :=
  [1116352408, 1899447441, 3049323471, 3921009573, 961987163, 1508970993,
   2453635748, 2870763221, 3624381080, 310598401, 607225278, 1426881987,
   1925078388, 2162078206, 2614888103, 3248222580, 3835390401, 4022224774,
   264347078, 604807628, 770255983, 1249150122, 1555081692, 1996064986,
   2554220882, 2821834349, 2952996808, 3210313671, 3336571891, 3584528711,
   113926993, 338241895, 666307205, 773529912, 1294757372, 1396182291,
   1695183700, 1986661051, 2177026350, 2456956037, 2730485921, 2820302411,
   3259730800, 3345764771, 3516065817, 3600352804, 4094571909, 275423344,
   430227734, 506948616, 659060556, 883997877, 958139571, 1322822218,
   1537002063, 1747873779, 1955562222, 2024104815, 2227730452, 2361852424,
   2428436474, 2756734187, 3204031479, 3329325298]

/-- SHA-256 initial hash value (FIPS 180-4, written in decimal). -/
def shaH0 : List Nat :=
  [1779033703, 3144134277, 1013904242, 2773480762,
   1359893119, 2600822924, 528734635, 1541459225]

/-- Big-endian 8-byte encoding of the bit length. -/
def be64 (n : Nat) : List Nat :=
  [(n >>> 56) &&& 255, (n >>> 48) &&& 255, (n >>> 40) &&& 255,
   (n >>> 32) &&& 255, (n >>> 24) &&& 255, (n >>> 16) &&& 255,
   (n >>> 8) &&& 255, n &&& 255]

/-- SHA-256 padding: append `0x80`, zero bytes to 56 mod 64, then the
64-bit big-endian message bit length. -/
def shaPad (msg : List Nat) : List Nat :=
  let L := msg.length
  msg ++ [0x80] ++ List.replicate ((119 - (L % 64)) % 64) 0 ++ be64 (8 * L)

/-- Split a byte list into 64-byte blocks (structural recursion on a fuel
bound so that the kernel can evaluate it; the fuel always suffices because
each step drops 64 ≥ 1 elements). -/
def chunks64Aux : Nat → List Nat → List (List Nat)
  | 0, _ => []
  | _, [] => []
  | fuel + 1, a :: rest => ((a :: rest).take 64) :: chunks64Aux fuel ((a :: rest).drop 64)

/-- Split a byte list into 64-byte blocks. -/
def chunks64 (l : List Nat) : List (List Nat) :=
  chunks64Aux (l.length + 1) l

/-- Combine bytes into big-endian 32-bit words. -/
def bytesToWords : List Nat → List Nat
  | b0 :: b1 :: b2 :: b3 :: rest =>
      (((b0 <<< 24) ||| (b1 <<< 16)) ||| ((b2 <<< 8) ||| b3)) :: bytesToWords rest
  | _ => []

/-- Extend the 16 block words to the 64-entry message schedule. -/
def shaSchedule (ws : List Nat) : Array Nat :=
  (List.range 48).foldl
    (fun w j =>
      let i := j + 16
      w.push (w32 (smallSigma1 (w.getD (i - 2) 0) + w.getD (i - 7) 0 +
                   smallSigma0 (w.getD (i - 15) 0) + w.getD (i - 16) 0)))
    ws.toArray

/-- One SHA-256 compression step over the 8-word working state. -/
def shaRound (w : Array Nat) (st : List Nat) (t : Nat) : List Nat :=
  match st with
  | [a, b, c, d, e, f, g, h] =>
      let t1 := w32 (h + bigSigma1 e + chooseBits e f g + shaK.getD t 0 + w.getD t 0)
      let t2 := w32 (bigSigma0 a + majorityBits a b c)
      [w32 (t1 + t2), a, b, c, w32 (d + t1), e, f, g]
  | _ => st

/-- Compress one 64-byte block into the running digest. -/
def compressBlock (h : List Nat) (block : List Nat) : List Nat :=
  let w := shaSchedule (bytesToWords block)
  let res := (List.range 64).foldl (shaRound w) h
  List.zipWith (fun x y => w32 (x + y)) h res

/-- UTF-8 encoding of one character (Python `str.encode("utf-8")`). -/
def utf8EncodeChar (c : Char) : List Nat :=
  let n := c.toNat
  if n < 0x80 then [n]
  else if n < 0x800 then
    [0xC0 ||| (n >>> 6), 0x80 ||| (n &&& 0x3F)]
  else if n < 0x10000 then
    [0xE0 ||| (n >>> 12), 0x80 ||| ((n >>> 6) &&& 0x3F), 0x80 ||| (n &&& 0x3F)]
  else
    [0xF0 ||| (n >>> 18), 0x80 ||| ((n >>> 12) &&& 0x3F),
     0x80 ||| ((n >>> 6) &&& 0x3F), 0x80 ||| (n &&& 0x3F)]

/-- UTF-8 encoding of a string as a byte list. -/
def utf8Bytes (s : String) : List Nat :=
  (s.toList.map utf8EncodeChar).flatten

/-- The eight 32-bit digest words of SHA-256 of a byte list. -/
def sha256words (msg : List Nat) : List Nat :=
  (chunks64 (shaPad msg)).foldl compressBlock shaH0

/-- Lowercase hex digit. -/
def hexDigit (n : Nat) : Char :=
  "0123456789abcdef".toList.getD n '0'

/-- Render one 32-bit word as 8 lowercase hex characters. -/
def wordToHex (x : Nat) : List Char :=
  [hexDigit ((x >>> 28) &&& 15), hexDigit ((x >>> 24) &&& 15),
   hexDigit ((x >>> 20) &&& 15), hexDigit ((x >>> 16) &&& 15),
   hexDigit ((x >>> 12) &&& 15), hexDigit ((x >>> 8) &&& 15),
   hexDigit ((x >>> 4) &&& 15), hexDigit (x &&& 15)]

/-- Model of `sha256(text)` of `spec_diff.py`: UTF-8 encode, SHA-256, lowercase hex. -/
def sha256hex (s : String) : String :=
  String.mk (((sha256words (utf8Bytes s)).map wordToHex).flatten)

/-! ## `spec_diff.py`: section extraction, drift detection, coverage, report -/

/-- Model of `SECTION_HEADING_RE = ^## +(.+?)\s*$` applied to a line, composed with the
caller's `m.group(1).strip()` (line 100 of `spec_diff.py`). The regex matches
iff the line starts with `"##"` followed by a space and at least one further
character; the stripped captured group is then exactly the remainder of the
line with surrounding whitespace stripped. -/
def headingTitle (line : String) : Option String :=
  match line.toList with
  | '#' :: '#' :: ' ' :: c :: rest => some (String.mk (pyStripChars (' ' :: c :: rest)))
  | _ => none

/-- Loop body of `extract_sections`: carry the current `(title, body lines)`
and emit a section whenever a new heading starts or input ends. -/
def extractGo : Option (String × List String) → List String → List (String × List String)
  | cur, [] =>
      (match cur with
       | none => []
       | some tb => [tb])
  | cur, l :: rest =>
      match headingTitle l with
      | some t =>
          (match cur with
           | none => extractGo (some (t, [])) rest
           | some tb => tb :: extractGo (some (t, [])) rest)
      | none =>
          match cur with
          | none => extractGo none rest
          | some (t, b) => extractGo (some (t, b ++ [l])) rest

/-- Model of `extract_sections`: list of `(title, body)` for each top-level `## `
section; the body is the newline-join of its lines, stripped. -/
def extractSections (specContent : String) : List (String × String) :=
  (extractGo none (pySplitlines specContent)).map
    (fun tb => (tb.1, pyStrip (joinStrings "\n" tb.2)))

/-- A previous-report `sections` map, as written by the report generator:
`title → hash` in insertion order (`previous.get(title, {}).get("hash")`
reads exactly the stored hash). -/
abbrev Snapshot := List (String × String)

/-- The `SectionInfo` dataclass. -/
structure SectionInfo where
  title : String
  hash : String
  changed : Bool
  deriving DecidableEq, Repr

/-- Model of `build_section_infos`: hash each extracted section body and set
`changed = (prev_hash is not None and prev_hash != h)`, where `prev_hash`
is the hash the previous snapshot stores for the title (`None` when the
snapshot is empty or lacks the title). -/
def buildSectionInfos (specContent : String) (previous : Snapshot) : List SectionInfo :=
  (extractSections specContent).map (fun tb =>
    let h := sha256hex tb.2
    match lookupLast previous tb.1 with
    | none => ⟨tb.1, h, false⟩
    | some ph => ⟨tb.1, h, ph != h⟩)

/-- Model of `load_previous_report().get("sections", {})`: `none` models a missing
report file, `some none` a report whose JSON fails to parse (the `except`
branch), `some (some m)` a parsed `sections` map. The first two yield the
empty baseline. -/
def loadPreviousReport : Option (Option Snapshot) → Snapshot
  | none => []
  | some none => []
  | some (some m) => m

/-- Model of `re.sub` of every maximal nonempty run of characters satisfying `p` by a
single space (`inRun` records whether the previous character was in a run). -/
def squashRuns (p : Char → Bool) (inRun : Bool) : List Char → List Char
  | [] => []
  | c :: rest =>
      if p c then
        (if inRun then squashRuns p true rest else ' ' :: squashRuns p true rest)
      else c :: squashRuns p false rest

/-- Characters kept by `_normalize_for_match`'s third pass: `[a-z0-9 ]`. -/
def isLowerAlnumSpaceChar (c : Char) : Bool :=
  ('a' ≤ c && c ≤ 'z') || ('0' ≤ c && c ≤ '9') || c == ' '

/-- Model of `_normalize_for_match`: lowercase; `re.sub("[-_]+", " ")`;
`re.sub("[^a-z0-9 ]+", " ")` (runs *replaced by a space*, not deleted);
`re.sub("\s+", " ")`; `.strip()`. -/
def normalizeForMatch (s : String) : String :=
  let t1 := s.toList.map Char.toLower
  let t2 := squashRuns (fun c => c == '-' || c == '_') false t1
  let t3 := squashRuns (fun c => !isLowerAlnumSpaceChar c) false t2
  String.mk (pyStripChars (squashRuns isPySpaceChar false t3))

/-- The `FEATURE_KEYWORDS` table. -/
def FEATURE_KEYWORDS : List (String × List String) :=
  [("Cryptography", ["HPKE", "Hybrid", "Kyber", "PQ", "Post-Quantum"]),
   ("Routing", ["Multipath", "WRR", "routing", "hop"]),
   ("Transport", ["QUIC", "TCP", "Teredo", "DATAGRAM"]),
   ("FEC", ["RaptorQ", "RS(255,223)", "redundancy"]),
   ("Plugin", ["Plugin", "Frame", "Capability", "CBOR"]),
   ("Telemetry", ["Telemetry", "Prometheus", "OpenTelemetry", "metrics"]),
   ("Low Power", ["Low Power", "Low-Power", "cover", "battery"]),
   ("Compliance", ["Compliance", "Core", "Plus", "Full"])]

/-- Model of `keyword_coverage`: join the companion documents with `"\n"`, normalize,
and record for every category/keyword whether the normalized keyword is a
substring of the normalized joined text. -/
def keywordCoverage (docTexts : List String) : List (String × List (String × Bool)) :=
  let normText := normalizeForMatch (joinStrings "\n" docTexts)
  FEATURE_KEYWORDS.map (fun ck =>
    (ck.1, ck.2.map (fun kw => (kw, substrStr (normalizeForMatch kw) normText))))

/-- Read one keyword's recorded presence flag out of a coverage structure. -/
def covLookup (cov : List (String × List (String × Bool))) (cat kw : String) : Option Bool :=
  match cov.find? (fun p => p.1 == cat) with
  | none => none
  | some p => (p.2.find? (fun q => q.1 == kw)).map (·.2)

/-- Model of `coverage_score`: `present / total * 100`, or `0` when there are no
keywords at all. -/
def coverageScore (cov : List (String × List (String × Bool))) : ℚ :=
  let total := (cov.map (fun p => p.2.length)).sum
  let present := (cov.map (fun p => (p.2.filter (fun q => q.2)).length)).sum
  if total = 0 then 0 else (present : ℚ) / (total : ℚ) * 100

/-- Model of `sorted(list(set(a) - set(b)))` on title lists. -/
def pySetDiffSorted (a b : List String) : List String :=
  List.insertionSort (· ≤ ·) ((a.filter (fun t => !(b.contains t))).dedup)

/-- The report fragment the drift claims are about: per-section infos plus
the new/removed title lists (`main`, lines 237–242). -/
structure RunOutput where
  sections : List SectionInfo
  newSections : List String
  removedSections : List String
  deriving DecidableEq, Repr

/-- One report-generation run on a given spec text and previous snapshot. -/
def runReport (specText : String) (prev : Snapshot) : RunOutput :=
  let sections := buildSectionInfos specText prev
  let prevTitles := prev.map (·.1)
  let currentTitles := sections.map (·.title)
  ⟨sections, pySetDiffSorted currentTitles prevTitles,
   pySetDiffSorted prevTitles currentTitles⟩

/-- The `sections` map a run's report persists for the next run:
`{s.title: asdict(s)}`, of which the next run reads only the hash. -/
def snapshotOf (r : RunOutput) : Snapshot :=
  r.sections.map (fun s => (s.title, s.hash))

/-! ## Python values and the fallible `main` pipeline of `spec_diff.py` -/

/-- A parsed JSON value as Python materializes it (`json.loads`). -/
inductive PyVal where
  | null
  | bool (b : Bool)
  | num (q : ℚ)
  | str (s : String)
  | list (l : List PyVal)
  | dict (ps : List (String × PyVal))

/-- Python truthiness of a JSON value. -/
def pyTruthy : PyVal → Bool
  | .null => false
  | .bool b => b
  | .num q => !(q == 0)
  | .str s => !(s == "")
  | .list l => !l.isEmpty
  | .dict ps => !ps.isEmpty

/-- Model of `value.get(key, default)`: defined on dicts (last binding of a duplicated
key wins), an `AttributeError` on every other value. -/
def pyGet : PyVal → String → PyVal → Except String PyVal
  | .dict ps, k, dflt =>
      .ok ((((ps.reverse).find? (fun p => p.1 == k)).map (·.2)).getD dflt)
  | _, _, _ => .error "AttributeError: object has no attribute get"

/-- Decimal digits as a number. -/
def digitsToNat (ds : List Char) : Nat :=
  ds.foldl (fun n c => n * 10 + (c.toNat - 48)) 0

/-- Model of `float(s)` string parsing, modelled for the common literal forms
(optional surrounding whitespace and sign, digits, optional fraction;
exponents and `inf`/`nan` are out of the modelled subset). -/
def parsePyFloat (s : String) : Option ℚ :=
  let cs := pyStripChars s.toList
  let signAndRest : ℚ × List Char :=
    match cs with
    | '-' :: r => (-1, r)
    | '+' :: r => (1, r)
    | r => (1, r)
  let intPart := signAndRest.2.takeWhile Char.isDigit
  match signAndRest.2.dropWhile Char.isDigit with
  | [] => if intPart.isEmpty then none
          else some (signAndRest.1 * (digitsToNat intPart : ℚ))
  | '.' :: frac =>
      if frac.all Char.isDigit && !(intPart.isEmpty && frac.isEmpty) then
        some (signAndRest.1 *
          ((digitsToNat intPart : ℚ) + (digitsToNat frac : ℚ) / ((10 : ℚ) ^ frac.length)))
      else none
  | _ => none

/-- Model of `int(s)` string parsing (optional surrounding whitespace and sign,
then decimal digits only). -/
def parsePyInt (s : String) : Option Int :=
  let cs := pyStripChars s.toList
  let signAndRest : Int × List Char :=
    match cs with
    | '-' :: r => (-1, r)
    | '+' :: r => (1, r)
    | r => (1, r)
  if !signAndRest.2.isEmpty && signAndRest.2.all Char.isDigit then
    some (signAndRest.1 * (digitsToNat signAndRest.2 : Int))
  else none

/-- Model of `float(v)`: numbers pass through, booleans become 0/1, strings are
parsed (raising `ValueError` on failure), everything else raises. -/
def pyFloat : PyVal → Except String ℚ
  | .num q => .ok q
  | .bool b => .ok (if b then 1 else 0)
  | .str s =>
      match parsePyFloat s with
      | some q => .ok q
      | none => .error "ValueError: could not convert string to float"
  | _ => .error "TypeError: float() argument"

/-- Model of `int(v)` (truncation toward zero on numbers, as Python truncates). -/
def pyInt : PyVal → Except String Int
  | .num q => .ok (Int.tdiv q.num (q.den : Int))
  | .bool b => .ok (if b then 1 else 0)
  | .str s =>
      match parsePyInt s with
      | some n => .ok n
      | none => .error "ValueError: invalid literal for int()"
  | _ => .error "TypeError: int() argument"

/-- The four-field `section_mapping` block of the report. -/
structure SectionMapping where
  percent : ℚ
  mappedCount : Int
  totalCount : Int
  unmapped : PyVal

/-- The mapping artifact as `main` sees it: `none` = file missing,
`some none` = `json.loads` failed (caught, `mapping_data = None`),
`some (some v)` = parsed value `v`. -/
def flattenArtifact : Option (Option PyVal) → Option PyVal
  | none => none
  | some none => none
  | some (some v) => some v

/-- Lines 268–273 of `spec_diff.py`: build the report's `section_mapping`
fields. A falsy `mapping_data` leaves every field `None` (block omitted);
a truthy one runs `.get`/`float`/`int` conversions, whose exceptions are
*not* caught. -/
def sectionMappingField (mdata : Option PyVal) : Except String (Option SectionMapping) :=
  match mdata with
  | none => .ok none
  | some v =>
      if pyTruthy v then do
        let pRaw ← pyGet v "section_coverage_percent" (.num 0)
        let p ← pyFloat pRaw
        let mRaw ← pyGet v "mapped_section_count" (.num 0)
        let mc ← pyInt mRaw
        let tRaw ← pyGet v "total_section_count" (.num 0)
        let tc ← pyInt tRaw
        let um ← pyGet v "unmapped_sections" (.list [])
        return some ⟨p, mc, tc, um⟩
      else .ok none

/-- One input file to `main`: missing (`FileNotFoundError`, which
`read_text` catches into `""`), unreadable (any other `OSError`, uncaught),
or readable content. -/
inductive FileContent where
  | missing
  | unreadable
  | content (s : String)
  deriving DecidableEq, Repr

/-- Model of `read_text`: returns `""` for a missing file and raises for an
unreadable one. -/
def readText : FileContent → Except String String
  | .missing => .ok ""
  | .unreadable => .error "OSError: file unreadable"
  | .content s => .ok s

/-- The filesystem state a `spec_diff.py` invocation reads. -/
structure MainInput where
  specFile : FileContent
  prevReport : Option (Option Snapshot)
  deltaEn : FileContent
  deltaJa : FileContent
  mappingArtifact : Option (Option PyVal)

/-- The JSON report content the run writes (the fields the claims are
about). -/
structure ReportCore where
  sections : List SectionInfo
  newSections : List String
  removedSections : List String
  keywordCoveragePercent : ℚ
  sectionMapping : Option SectionMapping
  coverageThresholdMet : Bool

/-- Observable outcome of a completed (non-raising) `main` call:
its return code, the JSON report written (`none` = not written), whether
the markdown report was written, and whether the markdown contains the
mapping-coverage block. -/
structure MainResult where
  exitCode : Nat
  jsonReport : Option ReportCore
  mdWritten : Bool
  mdMappingBlock : Bool

/-- Model of `main(threshold)`: read the spec (fatal `return 1` before any output
when its text is empty or the file is missing), load the previous snapshot,
build section infos and new/removed lists, read the delta docs, compute
keyword coverage, convert the mapping artifact, then write both reports and
return 0. An `Except.error` models an exception propagating past `main`;
no file has been written in that case because both writes happen last.
The threshold only selects a warning message, never the exit code. -/
def mainRun (inp : MainInput) (threshold : ℚ) : Except String MainResult := do
  let specText ← readText inp.specFile
  if specText = "" then
    return ⟨1, none, false, false⟩
  let prev := loadPreviousReport inp.prevReport
  let sections := buildSectionInfos specText prev
  let newSections := pySetDiffSorted (sections.map (·.title)) (prev.map (·.1))
  let removedSections := pySetDiffSorted (prev.map (·.1)) (sections.map (·.title))
  let dEn ← readText inp.deltaEn
  let dJa ← readText inp.deltaJa
  let cov := keywordCoverage [dEn, dJa]
  let covScore := coverageScore cov
  let smap ← sectionMappingField (flattenArtifact inp.mappingArtifact)
  return ⟨0, some ⟨sections, newSections, removedSections, covScore, smap,
                   decide (threshold ≤ covScore)⟩,
          true, smap.isSome⟩

/-- Neither report file reaches the disk: the run either raised before the
writes or returned early on the fatal path. -/
def noReportsWritten : Except String MainResult → Bool
  | .error _ => true
  | .ok r => r.jsonReport.isNone && !r.mdWritten

/-- The process exit status is nonzero (`return 1`, or an uncaught
exception which also terminates CPython with a nonzero status). -/
def nonzeroExit : Except String MainResult → Bool
  | .error _ => true
  | .ok r => !(r.exitCode == 0)

/-- Both report files were written. -/
def reportsWritten : Except String MainResult → Bool
  | .error _ => false
  | .ok r => r.jsonReport.isSome && r.mdWritten

/-- The run finished and its markdown report contains the mapping block. -/
def mdHasMappingBlock : Except String MainResult → Bool
  | .error _ => false
  | .ok r => r.mdMappingBlock

/-! ## `spec_test_map.py`: spec sections, annotation scanner, mapping coverage -/

/-- Model of `sec_re = ^## +(.+)$` applied to `line.strip()`, composed with the
caller's `m.group(1).strip()`: after stripping, a match needs `"##"`, at
least one space, and a nonempty remainder; the title is that remainder
stripped. -/
def specTestMapHeading (line : String) : Option String :=
  match pyStripChars line.toList with
  | '#' :: '#' :: ' ' :: rest =>
      let rem := rest.dropWhile (· == ' ')
      if rem.isEmpty then none else some (String.mk (pyStripChars rem))
  | _ => none

/-- Model of `SPEC_SECTIONS`: every heading title of the spec document, in order. -/
def specSections (content : String) : List String :=
  (pySplitlines content).filterMap specTestMapHeading

/-- Model of `s.startswith(p)`. -/
def strStartsWith (s p : String) : Bool :=
  p.toList.isPrefixOf s.toList

/-- The literal prefix tuple `("1.", "2.", …, "10.")`. -/
def numberedPrefixes : List String :=
  ["1.", "2.", "3.", "4.", "5.", "6.", "7.", "8.", "9.", "10."]

/-- Model of `any(s.startswith(prefix) for prefix in ("1.", …, "10."))`. -/
def isNumberedSection (s : String) : Bool :=
  numberedPrefixes.any (fun p => strStartsWith s p)

/-- The `spec_map` dict: section title → ordered unique test identifiers. -/
abbrev SpecMap := List (String × List String)

/-- Model of `total_numbered`: how many spec sections count as numbered. -/
def totalNumbered (sections : List String) : Nat :=
  (sections.filter isNumberedSection).length

/-- Model of `s in spec_map` (key membership). -/
def specMapContains (m : SpecMap) (k : String) : Bool :=
  m.any (fun p => p.1 == k)

/-- Model of `spec_map[k]` as an option (keys are unique by construction). -/
def specMapLookup (m : SpecMap) (k : String) : Option (List String) :=
  (m.find? (fun p => p.1 == k)).map (·.2)

/-- Model of `unmapped`: numbered sections, in document order, absent from the
mapping's keys. -/
def unmappedSections (sections : List String) (m : SpecMap) : List String :=
  sections.filter (fun s => isNumberedSection s && !specMapContains m s)

/-- Model of `section_coverage = (len(spec_map)/total_numbered*100.0) if
total_numbered else 0.0` — note the numerator counts *all* mapping keys. -/
def sectionCoveragePercent (sections : List String) (m : SpecMap) : ℚ :=
  if totalNumbered sections = 0 then 0
  else (m.length : ℚ) / (totalNumbered sections : ℚ) * 100

/-- Model of `annot_re = ^\s*///\s*@spec\s+(.+)$` composed with the caller's
`.strip()` of the captured payload. -/
def annotMatch (line : String) : Option String :=
  match line.toList.dropWhile isPySpaceChar with
  | '/' :: '/' :: '/' :: rest =>
      match rest.dropWhile isPySpaceChar with
      | '@' :: 's' :: 'p' :: 'e' :: 'c' :: rest2 =>
          let ws := rest2.takeWhile isPySpaceChar
          let rem := rest2.dropWhile isPySpaceChar
          if ws.isEmpty then none
          else if rem.isEmpty && ws.length < 2 then none
          else some (String.mk (pyStripChars rem))
      | _ => none
  | _ => none

/-- Model of `(?:pub\s+)?`: consume `pub` plus its whole whitespace run when `pub`
is followed by at least one whitespace character; otherwise consume
nothing. -/
def consumePub : List Char → List Char
  | 'p' :: 'u' :: 'b' :: c :: rest =>
      if isPySpaceChar c then (c :: rest).dropWhile isPySpaceChar
      else 'p' :: 'u' :: 'b' :: c :: rest
  | cs => cs

/-- Model of `(?:async\s+)?`, as for `pub`. -/
def consumeAsync : List Char → List Char
  | 'a' :: 's' :: 'y' :: 'n' :: 'c' :: c :: rest =>
      if isPySpaceChar c then (c :: rest).dropWhile isPySpaceChar
      else 'a' :: 's' :: 'y' :: 'n' :: 'c' :: c :: rest
  | cs => cs

/-- A character of the `[a-zA-Z0-9_]` class. -/
def isIdentChar (c : Char) : Bool :=
  ('a' ≤ c && c ≤ 'z') || ('A' ≤ c && c ≤ 'Z') || ('0' ≤ c && c ≤ '9') || c == '_'

/-- Model of `fn_name_re = ^\s*(?:pub\s+)?(?:async\s+)?fn\s+([a-zA-Z0-9_]+)\s*\(`:
the captured function name, when the line is a recognized definition. -/
def fnMatch (line : String) : Option String :=
  let cs := line.toList.dropWhile isPySpaceChar
  let cs2 := consumeAsync (consumePub cs)
  match cs2 with
  | 'f' :: 'n' :: c :: rest =>
      if isPySpaceChar c then
        let rest2 := (c :: rest).dropWhile isPySpaceChar
        let name := rest2.takeWhile isIdentChar
        if name.isEmpty then none
        else
          match (rest2.dropWhile isIdentChar).dropWhile isPySpaceChar with
          | '(' :: _ => some (String.mk name)
          | _ => none
      else none
  | _ => none

/-- Insert one identifier into a section's bucket, creating the key at the
end in insertion order and skipping identifiers already present
(`setdefault` + `if ident not in bucket: append`). -/
def addIdent : SpecMap → String → String → SpecMap
  | [], sec, ident => [(sec, [ident])]
  | (k, ids) :: rest, sec, ident =>
      if k == sec then
        (k, if ids.contains ident then ids else ids ++ [ident]) :: rest
      else (k, ids) :: addIdent rest sec ident

/-- Model of `flush()`: bind every pending annotation value to the identifier. -/
def flushAnnots (m : SpecMap) (annots : List String) (ident : String) : SpecMap :=
  annots.foldl (fun acc sec => addIdent acc sec ident) m

/-- The per-line scan loop of `spec_test_map.py` over one file: an
annotation line appends its payload to the pending list; a function
definition line flushes the pending list into the map under
`rel ++ "::" ++ name` and clears it; any other line changes nothing. -/
def scanGo (rel : String) : SpecMap → List String → List String → SpecMap
  | m, _, [] => m
  | m, annots, line :: rest =>
      let annots1 :=
        match annotMatch line with
        | some v => annots ++ [v]
        | none => annots
      match fnMatch line with
      | some f => scanGo rel (flushAnnots m annots1 (rel ++ "::" ++ f)) [] rest
      | none => scanGo rel m annots1 rest

/-- Scan one file (relative path `rel`) starting from an empty map. -/
def scanFileMap (rel : String) (lines : List String) : SpecMap :=
  scanGo rel [] [] lines

/-! ## Definitions taken from the claims' wording (for refutation) -/

/-- Claim C5's numberedness: the title begins with a (nonempty) decimal
integer immediately followed by a period — any integer, e.g. `"11."` or
`"0."` as well. -/
def claimNumbered (s : String) : Bool :=
  let ds := s.toList.takeWhile Char.isDigit
  !ds.isEmpty && ((s.toList.drop ds.length).head? == some '.')

/-- Claim C3's normalization: lowercase; hyphen/underscore runs collapsed
to spaces; all non-alphanumeric characters other than spaces *stripped*
(removed); whitespace runs collapsed. -/
def specNormalize (s : String) : String :=
  let t1 := s.toList.map Char.toLower
  let t2 := squashRuns (fun c => c == '-' || c == '_') false t1
  let t3 := t2.filter isLowerAlnumSpaceChar
  String.mk (squashRuns isPySpaceChar false t3)

/-- Claim C1's mapped count: numbered spec sections that appear as a
mapping key with at least one bound test identifier. -/
def claimedMappedCount (sections : List String) (m : SpecMap) : Nat :=
  (sections.filter (fun s => isNumberedSection s &&
    (match specMapLookup m s with
     | some ids => !ids.isEmpty
     | none => false))).length

/-- Claim C1's coverage percent: mapped numbered count over total numbered
count, times 100. -/
def claimedSectionCoverage (sections : List String) (m : SpecMap) : ℚ :=
  (claimedMappedCount sections m : ℚ) / (totalNumbered sections : ℚ) * 100

/-! ## Shared inputs for concrete instantiations -/

/-- A run against a missing primary spec document. -/
def sampleMissingInput : MainInput :=
  ⟨.missing, none, .missing, .missing, none⟩

/-- A syntactically valid mapping artifact whose coverage field is a
non-numeric string, as `json.loads` materializes
`{"section_coverage_percent": "abc"}`. -/
def c4Artifact : PyVal :=
  .dict [("section_coverage_percent", .str "abc")]

/-- A run with a readable spec document and the artifact above. -/
def c4Input : MainInput :=
  ⟨.content "## 1. Overview\nbody", none, .missing, .missing, some (some c4Artifact)⟩

/-- A spec document with two identically titled sections whose bodies
differ. -/
def dupSpec : String := "## A\nx\n## A\ny"

/-! ## Theorems for the claims -/

/-- Claim C6. When the primary specification document is missing or
unreadable, the run exits nonzero and writes neither the JSON report
nor the markdown report. -/
theorem C6_fatal_missing_spec (inp : MainInput) (t : ℚ)
    (h : inp.specFile = FileContent.missing ∨ inp.specFile = FileContent.unreadable) :
    noReportsWritten (mainRun inp t) = true ∧ nonzeroExit (mainRun inp t) = true := by
  obtain ⟨sf, pr, den, dja, ma⟩ := inp
  cases sf with
  | missing => exact ⟨rfl, rfl⟩
  | unreadable => exact ⟨rfl, rfl⟩
  | content s => rcases h with h | h <;> exact absurd h (by simp)

/-- Witness for C6 at a concrete missing-file input. -/
theorem C6_fatal_missing_spec_witness :
    (sampleMissingInput.specFile = FileContent.missing ∨
      sampleMissingInput.specFile = FileContent.unreadable) ∧
    (noReportsWritten (mainRun sampleMissingInput 70) = true ∧
      nonzeroExit (mainRun sampleMissingInput 70) = true) :=
  ⟨Or.inl rfl, C6_fatal_missing_spec sampleMissingInput 70 (Or.inl rfl)⟩

/-- Claim C10. An existing-but-empty primary specification document behaves
exactly as a missing one: same run result, nonzero exit, no report file
written. -/
theorem C10_empty_spec_like_missing (inp : MainInput) (t : ℚ) :
    mainRun { inp with specFile := .content "" } t =
      mainRun { inp with specFile := .missing } t ∧
    noReportsWritten (mainRun { inp with specFile := .content "" } t) = true ∧
    nonzeroExit (mainRun { inp with specFile := .content "" } t) = true :=
  ⟨rfl, rfl, rfl⟩

/-- Claim C4 code bug. The claim says every mapping-artifact content at
worst omits the mapping block while both reports are still written. The
code disproves it: a *parsable* artifact whose `section_coverage_percent`
is the string `"abc"` makes `float(...)` raise `ValueError` out of `main`,
so neither report file is written. A missing (`none`) or unparsable
(`some none`) artifact does behave as claimed: reports written, mapping
block omitted. -/
theorem C4_mapping_artifact_raises :
    mainRun c4Input 70 = .error "ValueError: could not convert string to float" ∧
    noReportsWritten (mainRun c4Input 70) = true ∧
    reportsWritten (mainRun { c4Input with mappingArtifact := none } 70) = true ∧
    mdHasMappingBlock (mainRun { c4Input with mappingArtifact := none } 70) = false ∧
    reportsWritten (mainRun { c4Input with mappingArtifact := some none } 70) = true ∧
    mdHasMappingBlock (mainRun { c4Input with mappingArtifact := some none } 70) = false :=
  ⟨rfl, rfl, rfl, rfl, rfl, rfl⟩

/-- Claim C5 counterexample. `"11. Security"` and `"0. Intro"` begin with a
decimal integer immediately followed by a period, yet the code does not
count them as numbered: they enter neither the total nor the unmapped
list, refuting the for-every-integer claim. -/
theorem C5_counterexample :
    claimNumbered "11. Security" = true ∧
    isNumberedSection "11. Security" = false ∧
    totalNumbered ["11. Security"] = 0 ∧
    unmappedSections ["11. Security"] [] = [] ∧
    claimNumbered "0. Intro" = true ∧
    isNumberedSection "0. Intro" = false := by
  decide

/-- Claim C5 amended. A title participates in section-mapping coverage iff
it starts with one of the ten literal prefixes `"1."` … `"10."`, i.e. with
`n.` for some `1 ≤ n ≤ 10`; titles such as `"0."` or `"11."` do not. -/
theorem C5_numbered_prefix_characterization (t : String) :
    isNumberedSection t = true ↔
      ∃ n : Nat, 1 ≤ n ∧ n ≤ 10 ∧ strStartsWith t (toString n ++ ".") = true := by
  constructor
  · intro h
    simp only [isNumberedSection] at h
    obtain ⟨p, hp, hs⟩ := List.any_eq_true.mp h
    fin_cases hp
    · exact ⟨1, by omega, by omega, hs⟩
    · exact ⟨2, by omega, by omega, hs⟩
    · exact ⟨3, by omega, by omega, hs⟩
    · exact ⟨4, by omega, by omega, hs⟩
    · exact ⟨5, by omega, by omega, hs⟩
    · exact ⟨6, by omega, by omega, hs⟩
    · exact ⟨7, by omega, by omega, hs⟩
    · exact ⟨8, by omega, by omega, hs⟩
    · exact ⟨9, by omega, by omega, hs⟩
    · exact ⟨10, by omega, by omega, hs⟩
  · rintro ⟨n, h1, h2, h3⟩
    simp only [isNumberedSection]
    refine List.any_eq_true.mpr ⟨toString n ++ ".", ?_, h3⟩
    interval_cases n <;> decide

/-- The lookup-nonempty test of the claimed mapped count holds exactly on
mapping keys, whenever every bucket of the mapping is nonempty. -/
lemma lookup_nonempty_iff_mem_keys (m : SpecMap)
    (hkeys : ∀ p ∈ m, p.2 ≠ []) (s : String) :
    (match specMapLookup m s with
     | some ids => !ids.isEmpty
     | none => false) = true ↔ s ∈ m.map Prod.fst := by
  induction m with
  | nil => simp [specMapLookup]
  | cons p rest ih =>
      obtain ⟨k, ids⟩ := p
      by_cases hks : k = s
      · subst hks
        have hne : ids ≠ [] := hkeys (k, ids) (by simp)
        simp [specMapLookup, List.find?_cons_of_pos, hne,
              List.isEmpty_iff]
      · have hrec := ih (fun p hp => hkeys p (List.mem_cons_of_mem _ hp))
        have hbeq : ((k, ids).1 == s) = false := by
          simp [hks]
        rw [specMapLookup, List.find?_cons_of_neg _ (by simp [hks])]
        rw [specMapLookup] at hrec
        simp only [List.map_cons, List.mem_cons]
        rw [hrec]
        constructor
        · exact Or.inr
        · rintro (h | h)
          · exact absurd h.symm hks
          · exact h

/-- Claim C1 counterexample. On the document `"## 1. A\n"` and the mapping
`{"X": ["t.rs::f"]}` — producible by annotation `@spec X` — the code
reports 100% section coverage because `len(spec_map)` counts the stray key
`"X"`, while the claimed formula (only numbered section titles count as
mapped) yields 0%. -/
theorem C1_counterexample :
    sectionCoveragePercent (specSections "## 1. A\n") [("X", ["t.rs::f"])] = 100 ∧
    claimedSectionCoverage (specSections "## 1. A\n") [("X", ["t.rs::f"])] = 0 := by
  have hs : specSections "## 1. A\n" = ["1. A"] := by decide
  have ht : totalNumbered ["1. A"] = 1 := by decide
  have hm : claimedMappedCount ["1. A"] [("X", ["t.rs::f"])] = 0 := by decide
  rw [hs]
  constructor
  · rw [sectionCoveragePercent, ht]
    norm_num
  · rw [claimedSectionCoverage, hm, ht]
    norm_num

/-- Claim C1 amended. The coverage percent equals the number of mapping
*keys* over the number of numbered sections; this agrees with the claimed
formula exactly when every mapping key is a numbered section title with a
nonempty bucket, the keys are distinct, and the document's numbered titles
are distinct. -/
theorem C1_section_coverage_restricted (sections : List String) (m : SpecMap)
    (hkeys : ∀ p ∈ m, isNumberedSection p.1 = true ∧ p.1 ∈ sections ∧ p.2 ≠ [])
    (hknd : (m.map Prod.fst).Nodup)
    (hsnd : (sections.filter isNumberedSection).Nodup) :
    sectionCoveragePercent sections m = claimedSectionCoverage sections m := by
  have hcount : claimedMappedCount sections m = m.length := by
    rw [claimedMappedCount]
    have hcomm : sections.filter (fun s => isNumberedSection s &&
        (match specMapLookup m s with
         | some ids => !ids.isEmpty
         | none => false)) =
        (sections.filter isNumberedSection).filter (fun s =>
          (match specMapLookup m s with
           | some ids => !ids.isEmpty
           | none => false)) := by
      rw [List.filter_filter]
      exact List.filter_congr (fun s _ => Bool.and_comm _ _)
    rw [hcomm]
    have h1 : ((sections.filter isNumberedSection).filter (fun s =>
        (match specMapLookup m s with
         | some ids => !ids.isEmpty
         | none => false))).Nodup := hsnd.filter _
    have hmem : ∀ s, s ∈ (sections.filter isNumberedSection).filter (fun s =>
        (match specMapLookup m s with
         | some ids => !ids.isEmpty
         | none => false)) ↔ s ∈ m.map Prod.fst := by
      intro s
      rw [List.mem_filter]
      constructor
      · rintro ⟨-, hq⟩
        exact (lookup_nonempty_iff_mem_keys m (fun p hp => (hkeys p hp).2.2) s).mp hq
      · intro hk
        refine ⟨?_, (lookup_nonempty_iff_mem_keys m
          (fun p hp => (hkeys p hp).2.2) s).mpr hk⟩
        obtain ⟨p, hp, rfl⟩ := List.mem_map.mp hk
        exact List.mem_filter.mpr ⟨(hkeys p hp).2.1, (hkeys p hp).1⟩
    have hfin : ((sections.filter isNumberedSection).filter (fun s =>
        (match specMapLookup m s with
         | some ids => !ids.isEmpty
         | none => false))).toFinset = (m.map Prod.fst).toFinset := by
      ext s
      simp only [List.mem_toFinset]
      exact hmem s
    have hlen := congrArg Finset.card hfin
    rw [List.toFinset_card_of_nodup h1, List.toFinset_card_of_nodup hknd] at hlen
    rw [hlen, List.length_map]
  by_cases h0 : totalNumbered sections = 0
  · rw [sectionCoveragePercent, claimedSectionCoverage, hcount, h0]
    norm_num
  · rw [sectionCoveragePercent, claimedSectionCoverage, hcount, if_neg h0]

/-- Witness for C1's amended statement on a concrete two-section document
with one properly annotated numbered section. -/
theorem C1_section_coverage_restricted_witness :
    (∀ p ∈ ([("1. A", ["t.rs::f"])] : SpecMap),
      isNumberedSection p.1 = true ∧ p.1 ∈ ["1. A", "2. B"] ∧ p.2 ≠ []) ∧
    (([("1. A", ["t.rs::f"])] : SpecMap).map Prod.fst).Nodup ∧
    (["1. A", "2. B"].filter isNumberedSection).Nodup ∧
    sectionCoveragePercent ["1. A", "2. B"] [("1. A", ["t.rs::f"])] =
      claimedSectionCoverage ["1. A", "2. B"] [("1. A", ["t.rs::f"])] :=
  ⟨by decide, by decide, by decide,
   C1_section_coverage_restricted _ _ (by decide) (by decide) (by decide)⟩

/-- Claim C3 counterexample. For the table keyword `"RS(255,223)"` and the
single companion text `"rs255223"`: under the claim's normalization
(non-alphanumerics *stripped*) the keyword normalizes to `"rs255223"` and
occurs in the normalized text, yet the code reports it absent, because the
code *replaces* non-alphanumerics with spaces (`"rs 255 223"`). -/
theorem C3_counterexample :
    covLookup (keywordCoverage ["rs255223"]) "FEC" "RS(255,223)" = some false ∧
    specNormalize "RS(255,223)" = "rs255223" ∧
    substrStr (specNormalize "RS(255,223)")
      (specNormalize (joinStrings "\n" ["rs255223"])) = true := by
  decide

/-- Claim C3 amended. Every recorded presence flag equals the substring
test between the *code's* normalization of the keyword (runs of
non-alphanumerics other than space become one space rather than being
deleted) and the same normalization of the newline-join of the companion
texts. -/
theorem C3_keyword_presence (docTexts : List String) (cat kw : String)
    (flags : List (String × Bool)) (b : Bool)
    (h1 : (cat, flags) ∈ keywordCoverage docTexts)
    (h2 : (kw, b) ∈ flags) :
    b = substrStr (normalizeForMatch kw)
          (normalizeForMatch (joinStrings "\n" docTexts)) := by
  rw [keywordCoverage] at h1
  obtain ⟨ck, hck, heq⟩ := List.mem_map.mp h1
  injection heq with hcat hflags
  subst hflags
  obtain ⟨kw0, hkw0, heq2⟩ := List.mem_map.mp h2
  injection heq2 with hkw hb
  subst hkw
  exact hb.symm

/-- Witness for C3's amended statement: the `"HPKE"` flag on the companion
text `"hpke"`. -/
theorem C3_keyword_presence_witness :
    (("Cryptography",
       [("HPKE", true), ("Hybrid", false), ("Kyber", false), ("PQ", false),
        ("Post-Quantum", false)]) ∈ keywordCoverage ["hpke"]) ∧
    (("HPKE", true) ∈
       [("HPKE", true), ("Hybrid", false), ("Kyber", false), ("PQ", false),
        ("Post-Quantum", false)]) ∧
    true = substrStr (normalizeForMatch "HPKE")
             (normalizeForMatch (joinStrings "\n" ["hpke"])) :=
  ⟨by decide, by decide,
   C3_keyword_presence ["hpke"] "Cryptography" "HPKE"
     [("HPKE", true), ("Hybrid", false), ("Kyber", false), ("PQ", false),
      ("Post-Quantum", false)] true (by decide) (by decide)⟩

/-- Claim C7. A section's `changed` flag is true iff the previous snapshot
stores a hash for its title and that hash differs from the digest of its
current trimmed body; a title absent from the snapshot is never `changed`,
and a missing or unparsable snapshot loads as the empty baseline. -/
theorem C7_changed_characterization (spec : String) (prev : Snapshot) (i : Nat)
    (s : SectionInfo) (t b : String)
    (h1 : (buildSectionInfos spec prev).get? i = some s)
    (h2 : (extractSections spec).get? i = some (t, b)) :
    (s.changed = true ↔ ∃ ph, lookupLast prev t = some ph ∧ ph ≠ sha256hex b) ∧
    s.title = t ∧ s.hash = sha256hex b ∧
    loadPreviousReport none = [] ∧ loadPreviousReport (some none) = [] := by
  rw [buildSectionInfos, List.get?_map, h2] at h1
  simp only [Option.map_some] at h1
  injection h1 with h1
  subst h1
  cases hl : lookupLast prev t with
  | none => simp [hl, loadPreviousReport]
  | some ph => simp [hl, bne_iff_ne, loadPreviousReport]

/-- Witness for C7 on `"## A\nbody"` against a snapshot holding a stale
hash for `"A"`. -/
theorem C7_changed_characterization_witness :
    ((buildSectionInfos "## A\nbody" [("A", "ffff")]).get? 0 =
      some ⟨"A", sha256hex "body", true⟩) ∧
    ((extractSections "## A\nbody").get? 0 = some ("A", "body")) ∧
    (((⟨"A", sha256hex "body", true⟩ : SectionInfo).changed = true ↔
        ∃ ph, lookupLast [("A", "ffff")] "A" = some ph ∧ ph ≠ sha256hex "body") ∧
      (⟨"A", sha256hex "body", true⟩ : SectionInfo).title = "A" ∧
      (⟨"A", sha256hex "body", true⟩ : SectionInfo).hash = sha256hex "body" ∧
      loadPreviousReport none = [] ∧ loadPreviousReport (some none) = []) :=
  ⟨by decide, by decide,
   C7_changed_characterization "## A\nbody" [("A", "ffff")] 0
     ⟨"A", sha256hex "body", true⟩ "A" "body" (by decide) (by decide)⟩

/-- Last-binding lookup on a functional pair list returns the value of any
binding of the key. -/
lemma lookupLast_eq_of_functional (ps : List (String × String))
    (hfun : ∀ p ∈ ps, ∀ q ∈ ps, p.1 = q.1 → p.2 = q.2)
    {t v : String} (hmem : (t, v) ∈ ps) : lookupLast ps t = some v := by
  rw [lookupLast]
  cases hf : ps.reverse.find? (fun p => p.1 == t) with
  | none =>
      exfalso
      have := List.find?_eq_none.mp hf (t, v) (List.mem_reverse.mpr hmem)
      simp at this
  | some p =>
      have hp1 := List.find?_some hf
      have hpmem : p ∈ ps := List.mem_reverse.mp (List.mem_of_find?_eq_some hf)
      have : p.2 = v := hfun p hpmem (t, v) hmem (by simpa using hp1)
      simp [this]

/-- The titles of the built section infos are the extracted titles. -/
lemma titles_buildSectionInfos (spec : String) (prev : Snapshot) :
    (buildSectionInfos spec prev).map SectionInfo.title =
      (extractSections spec).map Prod.fst := by
  rw [buildSectionInfos, List.map_map]
  refine List.map_congr_left (fun tb _ => ?_)
  dsimp only [Function.comp]
  cases lookupLast prev tb.1 <;> rfl

/-- The snapshot a run persists pairs every extracted title with the hash
of its body, independently of the previous snapshot. -/
lemma snapshotOf_runReport (spec : String) (prev : Snapshot) :
    snapshotOf (runReport spec prev) =
      (extractSections spec).map (fun tb => (tb.1, sha256hex tb.2)) := by
  rw [snapshotOf, runReport, buildSectionInfos, List.map_map]
  refine List.map_congr_left (fun tb _ => ?_)
  dsimp only [Function.comp]
  cases lookupLast prev tb.1 <;> rfl

/-- A Python sorted set difference is empty when every left element is
contained in the right list. -/
lemma pySetDiffSorted_eq_nil (a b : List String)
    (h : ∀ x ∈ a, b.contains x = true) : pySetDiffSorted a b = [] := by
  rw [pySetDiffSorted]
  have hf : a.filter (fun t => !(b.contains t)) = [] := by
    rw [List.filter_eq_nil_iff]
    intro x hx
    simpa using h x hx
  rw [hf]
  rfl

/-- Claim C2 amended. For a document in which any two sections sharing a
title have identical bodies (in particular any document with pairwise
distinct titles), the second of two runs on unchanged inputs — with the
first run's report as its snapshot — has every `changed` flag false and
empty new/removed lists. -/
theorem C2_idempotence (spec : String) (prev0 : Snapshot)
    (hdup : ∀ p ∈ extractSections spec, ∀ q ∈ extractSections spec,
      p.1 = q.1 → p.2 = q.2) :
    (∀ s ∈ (runReport spec (snapshotOf (runReport spec prev0))).sections,
      s.changed = false) ∧
    (runReport spec (snapshotOf (runReport spec prev0))).newSections = [] ∧
    (runReport spec (snapshotOf (runReport spec prev0))).removedSections = [] := by
  set snap := snapshotOf (runReport spec prev0) with hsnap
  rw [snapshotOf_runReport] at hsnap
  have hsnapfun : ∀ p ∈ snap, ∀ q ∈ snap, p.1 = q.1 → p.2 = q.2 := by
    rw [hsnap]
    rintro p hp q hq hpq
    obtain ⟨a, ha, rfl⟩ := List.mem_map.mp hp
    obtain ⟨c, hc, rfl⟩ := List.mem_map.mp hq
    simp only at hpq ⊢
    rw [hdup a ha c hc hpq]
  have hlook : ∀ tb ∈ extractSections spec,
      lookupLast snap tb.1 = some (sha256hex tb.2) := by
    intro tb htb
    refine lookupLast_eq_of_functional snap hsnapfun ?_
    rw [hsnap]
    exact List.mem_map.mpr ⟨tb, htb, rfl⟩
  refine ⟨?_, ?_, ?_⟩
  · intro s hs
    rw [runReport] at hs
    simp only at hs
    rw [buildSectionInfos] at hs
    obtain ⟨tb, htb, rfl⟩ := List.mem_map.mp hs
    simp only [hlook tb htb, bne_self_eq_false]
  · rw [runReport]
    simp only
    refine pySetDiffSorted_eq_nil _ _ (fun x hx => ?_)
    rw [titles_buildSectionInfos] at hx
    rw [hsnap, List.map_map]
    have : x ∈ (extractSections spec).map (Prod.fst ∘ fun tb => (tb.1, sha256hex tb.2)) := by
      simpa using hx
    exact List.elem_iff.mpr (by simpa using this)
  · rw [runReport]
    simp only
    refine pySetDiffSorted_eq_nil _ _ (fun x hx => ?_)
    rw [hsnap, List.map_map] at hx
    rw [titles_buildSectionInfos]
    have : x ∈ (extractSections spec).map Prod.fst := by
      simpa using hx
    exact List.elem_iff.mpr this

/-- Witness for C2 on the duplicate-free document `"## A\nx"`. -/
theorem C2_idempotence_witness :
    (∀ p ∈ extractSections "## A\nx", ∀ q ∈ extractSections "## A\nx",
      p.1 = q.1 → p.2 = q.2) ∧
    ((∀ s ∈ (runReport "## A\nx" (snapshotOf (runReport "## A\nx" []))).sections,
        s.changed = false) ∧
      (runReport "## A\nx" (snapshotOf (runReport "## A\nx" []))).newSections = [] ∧
      (runReport "## A\nx" (snapshotOf (runReport "## A\nx" []))).removedSections = []) :=
  ⟨by decide, C2_idempotence "## A\nx" [] (by decide)⟩

/-- Claim C2 counterexample. On a document with two sections both titled
`"A"` but with bodies `"x"` and `"y"`, the snapshot keeps only the last
hash, so the *second* run on unchanged inputs marks the first section
`changed` — refuting idempotence for every document. -/
theorem C2_counterexample :
    (runReport dupSpec (snapshotOf (runReport dupSpec []))).sections.map
      SectionInfo.changed = [true, false] := by
  decide

/-- An annotation line starts (after leading whitespace) with a slash. -/
lemma annotMatch_head (line : String) (v : String)
    (h : annotMatch line = some v) :
    ∃ rest, line.toList.dropWhile isPySpaceChar = '/' :: rest := by
  rw [annotMatch] at h
  split at h
  · rename_i rest heq
    exact ⟨'/' :: '/' :: rest, heq⟩
  · exact absurd h (by simp)

/-- A line starting (after leading whitespace) with a slash is not a
function-definition line. -/
lemma fnMatch_eq_none_of_slash (line : String) (rest : List Char)
    (heq : line.toList.dropWhile isPySpaceChar = '/' :: rest) :
    fnMatch line = none := by
  unfold fnMatch
  rw [heq]
  rfl

/-- A function-definition line is never simultaneously an annotation line:
annotation lines start with `///` while a function match needs `pub`,
`async` or `fn` first. -/
lemma annotMatch_none_of_fnMatch (line : String) (f : String)
    (h : fnMatch line = some f) : annotMatch line = none := by
  cases ha : annotMatch line with
  | none => rfl
  | some v =>
      obtain ⟨rest, heq⟩ := annotMatch_head line v ha
      rw [fnMatch_eq_none_of_slash line rest heq] at h
      exact absurd h (by simp)

/-- Lines that are neither annotation nor function lines leave the scan
state untouched. -/
lemma scanGo_skip (rel : String) (m : SpecMap) (annots : List String)
    (mid rest : List String)
    (h : ∀ l ∈ mid, annotMatch l = none ∧ fnMatch l = none) :
    scanGo rel m annots (mid ++ rest) = scanGo rel m annots rest := by
  induction mid with
  | nil => rfl
  | cons l ls ih =>
      have hl := h l (by simp)
      rw [List.cons_append]
      simp only [scanGo, hl.1, hl.2]
      exact ih (fun x hx => h x (by simp [hx]))

/-- Claim C8. Reaching a function-definition line binds exactly the pending
annotation values accumulated since the last flush (those of the preceding
function-free lines) to `relativePath ++ "::" ++ functionName` and clears
the pending list; and a file tail without any function-definition line
contributes nothing to the map — trailing annotations are dropped. -/
theorem C8_flush_semantics (rel : String) :
    (∀ (m : SpecMap) (annots : List String) (pre : List String)
        (fnline : String) (rest : List String) (f : String),
        (∀ l ∈ pre, fnMatch l = none) → fnMatch fnline = some f →
        scanGo rel m annots (pre ++ fnline :: rest) =
          scanGo rel (flushAnnots m (annots ++ pre.filterMap annotMatch)
                        (rel ++ "::" ++ f)) [] rest) ∧
    (∀ (m : SpecMap) (annots : List String) (lines : List String),
        (∀ l ∈ lines, fnMatch l = none) → scanGo rel m annots lines = m) := by
  constructor
  · intro m annots pre
    induction pre generalizing annots with
    | nil =>
        intro fnline rest f _ hf
        have ha : annotMatch fnline = none := annotMatch_none_of_fnMatch fnline f hf
        simp only [List.nil_append, scanGo, ha, hf, List.filterMap_nil,
                   List.append_nil]
    | cons l pre' ih =>
        intro fnline rest f hpre hf
        have hl : fnMatch l = none := hpre l (by simp)
        have htail : ∀ x ∈ pre', fnMatch x = none :=
          fun x hx => hpre x (by simp [hx])
        cases hal : annotMatch l with
        | none =>
            rw [List.cons_append]
            simp only [scanGo, hal, hl]
            rw [List.filterMap_cons_none hal]
            exact ih annots fnline rest f htail hf
        | some v =>
            rw [List.cons_append]
            simp only [scanGo, hal, hl]
            rw [List.filterMap_cons_some hal]
            have := ih (annots ++ [v]) fnline rest f htail hf
            simpa [List.append_assoc] using this
  · intro m annots lines
    induction lines generalizing annots with
    | nil => intro _; rfl
    | cons l ls ih =>
        intro h
        have hl : fnMatch l = none := h l (by simp)
        cases hal : annotMatch l with
        | none =>
            simp only [scanGo, hal, hl]
            exact ih _ (fun x hx => h x (by simp [hx]))
        | some v =>
            simp only [scanGo, hal, hl]
            exact ih _ (fun x hx => h x (by simp [hx]))

/-- Witness for C8: one annotation line flushed by a test definition, and a
trailing annotation dropped at end of file. -/
theorem C8_flush_semantics_witness :
    (∀ l ∈ ["/// @spec 1. Overview"], fnMatch l = none) ∧
    fnMatch "fn check_overview(" = some "check_overview" ∧
    scanGo "tests/a.rs" [] []
        (["/// @spec 1. Overview"] ++ "fn check_overview(" :: []) =
      scanGo "tests/a.rs"
        (flushAnnots [] ([] ++ ["/// @spec 1. Overview"].filterMap annotMatch)
          ("tests/a.rs" ++ "::" ++ "check_overview")) [] [] ∧
    (∀ l ∈ ["/// @spec dangling", "// end"], fnMatch l = none) ∧
    scanGo "tests/a.rs" [] [] ["/// @spec dangling", "// end"] = [] :=
  ⟨by decide, by decide,
   (C8_flush_semantics "tests/a.rs").1 [] [] ["/// @spec 1. Overview"]
     "fn check_overview(" [] "check_overview" (by decide) (by decide),
   by decide,
   (C8_flush_semantics "tests/a.rs").2 [] [] ["/// @spec dangling", "// end"]
     (by decide)⟩

/-- Claim C9. A pending annotation survives any number of intervening lines
that are neither annotation nor function lines, and is bound to the next
function-definition line wherever it occurs later. -/
theorem C9_annotation_survives_gap (rel : String) (m : SpecMap)
    (annots : List String) (aline v : String) (mid : List String)
    (fnline f : String) (rest : List String)
    (ha : annotMatch aline = some v)
    (hmid : ∀ l ∈ mid, annotMatch l = none ∧ fnMatch l = none)
    (hf : fnMatch fnline = some f) :
    scanGo rel m annots (aline :: (mid ++ fnline :: rest)) =
      scanGo rel (flushAnnots m (annots ++ [v]) (rel ++ "::" ++ f)) [] rest := by
  have hfa : fnMatch aline = none := by
    obtain ⟨r, heq⟩ := annotMatch_head aline v ha
    exact fnMatch_eq_none_of_slash aline r heq
  simp only [scanGo, ha, hfa]
  rw [scanGo_skip rel m (annots ++ [v]) mid (fnline :: rest) hmid]
  have hann : annotMatch fnline = none := annotMatch_none_of_fnMatch fnline f hf
  simp only [scanGo, hann, hf]

/-- Witness for C9: an annotation separated from its function by a blank
line, ordinary code and a comment still binds to that function. -/
theorem C9_annotation_survives_gap_witness :
    annotMatch "/// @spec 2. Security" = some "2. Security" ∧
    (∀ l ∈ ["", "let x = 1;", "// note"],
      annotMatch l = none ∧ fnMatch l = none) ∧
    fnMatch "pub async fn sec_check(" = some "sec_check" ∧
    scanGo "t.rs" [] []
        ("/// @spec 2. Security" ::
          (["", "let x = 1;", "// note"] ++ "pub async fn sec_check(" :: [])) =
      scanGo "t.rs"
        (flushAnnots [] ([] ++ ["2. Security"]) ("t.rs" ++ "::" ++ "sec_check"))
        [] [] :=
  ⟨by decide, by decide, by decide,
   C9_annotation_survives_gap "t.rs" [] [] "/// @spec 2. Security" "2. Security"
     ["", "let x = 1;", "// note"] "pub async fn sec_check(" "sec_check" []
     (by decide) (by decide) (by decide)⟩

end NyxSpec
